import Mathlib

/-!
Verification development for the `expr` expression library
(`src/expression.hpp`, `src/expression.cpp`).

The development is split into two layers.

* A fully computable *token/tree* layer mirroring the lexer
  (`expression::preparse`, `expression::parse_impl`), where operator and
  function tokens carry the one-character tag the source pushes on its
  `sign_buffer`, and the tree builder (`expression::build_impl`).  The
  source converts a tag to a `std::function` at token-emission time via
  `detail::sign_to_binary` / `detail::sign_to_unary`; here that conversion
  is deferred to the semantic layer (`toSem`), which applies the same
  lookup tables with the same failure cases.  Recursions are indexed by a
  fuel parameter large enough for every input considered, so that concrete
  runs reduce inside the kernel.

* A *semantic* layer over `ℝ` (the idealisation of the source's `double`),
  with trees whose operator nodes carry real functions, mirroring
  `expr::node`/`variant_t`, the two evaluators `expression::eval_impl`,
  and the tree rewriter `expression::optimize_impl`.  Null `shared_ptr`
  children are modelled by an explicit `snode.null` constructor;
  dereferencing one (undefined behaviour in the source) is modelled as an
  error value.
-/

namespace Expr

/-- `detail::sign_priority` (expression.cpp:40-56). Operator precedence:
`+ -` are 0, `* /` are 1, `^` is 2, the unary-function tags are 3, and
every other character (notably `%`) is -1. -/
def sign_priority (x : Char) : Int :=
  let x := x.toLower
  if x = '+' ∨ x = '-' then 0
  else if x = '*' ∨ x = '/' then 1
  else if x = '^' then 2
  else if x = 's' ∨ x = 'c' ∨ x = 't' ∨ x = 'e' ∨ x = 'l' ∨ x = 'a' ∨ x = 'v' then 3
  else -1

/-- `detail::stronger_sign` (expression.cpp:58-61). -/
def stronger_sign (A B : Char) : Bool :=
  decide (sign_priority B < sign_priority A)

/-- `detail::is_binary_f` (expression.cpp:63-66). -/
def is_binary_f (ch : Char) : Bool :=
  ch == '+' || ch == '-' || ch == '*' || ch == '/' || ch == '^' || ch == '%'

/-- The C locale whitespace set accepted by `std::isspace`. -/
def is_space (ch : Char) : Bool :=
  ch == ' ' || ch == '\t' || ch == '\n' || ch == '\x0b' || ch == '\x0c' || ch == '\r'

/-- Token type mirroring `expr::variant_t`
(`std::variant<nothing, const_t, param_t, unary_f, binary_f>`,
expression.hpp:19-32).  Numeric constants are carried as exact rationals
(the decimal value the literal denotes); operator and function alternatives
carry the tag character the lexer pushes, interpreted by `toSem` below. -/
inductive variant_t where
  | nothing
  | const (value : ℚ)
  | param (name : Char)
  | unary (tag : Char)
  | binary (tag : Char)
deriving DecidableEq, Repr

/-- Tree node mirroring `expr::node` (expression.hpp:34-49): a content
variant plus two child pointers; `null` models an empty `shared_ptr`. -/
inductive node where
  | null
  | mk (content : variant_t) (left right : node)
deriving DecidableEq, Repr

/-- Decidable equality of `Except` results, for concrete runs of the
computable layer. -/
instance exceptDecEq {ε α : Type} [DecidableEq ε] [DecidableEq α] :
    DecidableEq (Except ε α) := fun a b =>
  match a, b with
  | .ok x, .ok y => if h : x = y then isTrue (by rw [h]) else isFalse (by simp [h])
  | .error x, .error y => if h : x = y then isTrue (by rw [h]) else isFalse (by simp [h])
  | .ok _, .error _ => isFalse (by simp)
  | .error _, .ok _ => isFalse (by simp)

/-- `expression::preparse` (expression.cpp:203-211), single-pass form:
insert a `*` before every `(` at position ≥ 1 whose preceding character in
the original string is `)` or a digit.  (The source's find/insert loop
re-examines each `(` once after insertion, with `*` now preceding it, and
never inserts twice, so it computes exactly this.) -/
def preparse_go (prev : Char) : List Char → List Char
  | [] => []
  | c :: rest =>
    if c == '(' && (prev == ')' || prev.isDigit) then
      '*' :: c :: preparse_go c rest
    else
      c :: preparse_go c rest

/-- Entry point of the preparse pass; the first character never gets a
`*` inserted before it (the source starts searching at index 1). -/
def preparse : List Char → List Char
  | [] => []
  | c :: rest => c :: preparse_go c rest

/-- Value of a digit string, most significant first. -/
def digits_to_nat (l : List Char) : Nat :=
  l.foldl (fun n c => 10 * n + (c.toNat - '0'.toNat)) 0

/-- Components of a numeric literal matched by `regex::real`
(`^(\d)+(\.(\d)*)?([Ee](\+|-)?(\d)+)?`, expression.cpp:156). -/
structure RealLit where
  int_digits : List Char
  frac_digits : Option (List Char)
  exp_part : Option (Bool × List Char)
  rest : List Char
deriving DecidableEq, Repr

/-- Helper for the exponent group: it participates only when at least one
digit follows `[Ee](+|-)?`; otherwise the regex backtracks and the match
ends before the `E`. -/
def match_exp_digits (neg : Bool) (l orig : List Char) :
    Option (Bool × List Char) × List Char :=
  let ds := l.takeWhile Char.isDigit
  if ds.isEmpty then (none, orig) else (some (neg, ds), l.drop ds.length)

/-- Match the optional `[Ee](+|-)?(\d)+` exponent group. -/
def match_exp (l : List Char) : Option (Bool × List Char) × List Char :=
  match l with
  | e :: rest =>
    if e == 'E' || e == 'e' then
      match rest with
      | '+' :: rest2 => match_exp_digits false rest2 l
      | '-' :: rest2 => match_exp_digits true rest2 l
      | _ => match_exp_digits false rest l
    else (none, l)
  | [] => (none, [])

/-- Match the optional `\.(\d)*` fraction group (zero fraction digits are
allowed by the regex). -/
def match_frac (l : List Char) : Option (List Char) × List Char :=
  match l with
  | '.' :: rest =>
    let ds := rest.takeWhile Char.isDigit
    (some ds, rest.drop ds.length)
  | _ => (none, l)

/-- Anchored match of `regex::real`; requires a leading digit. -/
def match_real (l : List Char) : Option RealLit :=
  match l with
  | c :: _ =>
    if c.isDigit then
      let ds := l.takeWhile Char.isDigit
      let r1 := l.drop ds.length
      let (fr, r2) := match_frac r1
      let (ex, r3) := match_exp r2
      some ⟨ds, fr, ex, r3⟩
    else none
  | [] => none

/-- The exact rational value denoted by a matched literal; models the
`std::stod` call at expression.cpp:232 (up to the usual idealisation of
`double` by exact arithmetic).  The fraction-free, exponent-free case is
kept free of rational arithmetic so that it reduces definitionally. -/
def real_value (m : RealLit) : ℚ :=
  let base : ℚ :=
    match m.frac_digits with
    | none => (digits_to_nat m.int_digits : ℚ)
    | some ds =>
      (digits_to_nat m.int_digits : ℚ) + (digits_to_nat ds : ℚ) / (10 : ℚ) ^ ds.length
  match m.exp_part with
  | none => base
  | some (neg, ds) =>
    if neg then base / (10 : ℚ) ^ digits_to_nat ds
    else base * (10 : ℚ) ^ digits_to_nat ds

/-- Anchored match of `regex::fun`
(`^((a?sin)|(a?cos)|(a?t(an|g))|(ln)|(exp)|(abs)|((sq|cb)rt))`,
expression.cpp:170) combined with the tag-selection switch at
expression.cpp:289-305; returns the pushed tag and the remaining input. -/
def match_fun (l : List Char) : Option (Char × List Char) :=
  if l.take 4 = "asin".toList then some ('S', l.drop 4)
  else if l.take 4 = "acos".toList then some ('C', l.drop 4)
  else if l.take 4 = "atan".toList then some ('T', l.drop 4)
  else if l.take 3 = "atg".toList then some ('T', l.drop 3)
  else if l.take 4 = "sqrt".toList then some ('v', l.drop 4)
  else if l.take 3 = "sin".toList then some ('s', l.drop 3)
  else if l.take 4 = "cbrt".toList then some ('V', l.drop 4)
  else if l.take 3 = "cos".toList then some ('c', l.drop 3)
  else if l.take 3 = "tan".toList then some ('t', l.drop 3)
  else if l.take 2 = "tg".toList then some ('t', l.drop 2)
  else if l.take 2 = "ln".toList then some ('l', l.drop 2)
  else if l.take 3 = "exp".toList then some ('e', l.drop 3)
  else if l.take 3 = "abs".toList then some ('|', l.drop 3)
  else none

/-- The `pi` constant pushed at expression.cpp:313: the decimal literal
`3.141592653589793` appearing in the source. -/
def pi_val : ℚ := 3.141592653589793

/-- The Euler constant pushed at expression.cpp:318.  The source stores the
`double` `std::exp(1)`; its shortest exact decimal rendering
`2.718281828459045` stands in for it here (no claim depends on its value). -/
def e_val : ℚ := 2.718281828459045

/-- Token emitted when a tag is drained from the `sign_buffer`
(expression.cpp:237-246 and 342-349): binary-operator characters become
binary tokens, everything else a unary-function token. -/
def sign_token (c : Char) : variant_t :=
  if is_binary_f c then variant_t.binary c else variant_t.unary c

/-- The pop loop run before pushing a binary operator
(expression.cpp:237-246): while the stack top is not strictly weaker than
the incoming operator, pop it into the output buffer.  Returns the
remaining stack and the extended buffer. -/
def popStronger (operation : Char) : List Char → List variant_t → List Char × List variant_t
  | [], buffer => ([], buffer)
  | s :: rest, buffer =>
    if !stronger_sign operation s then
      popStronger operation rest (buffer ++ [sign_token s])
    else (s :: rest, buffer)

/-- The matching-parenthesis scan of expression.cpp:252-266: `counter`
starts at 1, `index` walks the characters after the `(`; returns the index
(in the coordinates of the full line, the `(` being index 0) of the
closing parenthesis, or `none` when the line ends first. -/
def find_close : List Char → Int → Nat → Option Nat
  | [], _, _ => none
  | c :: rest, counter, index =>
    let counter' := if c = '(' then counter + 1 else if c = ')' then counter - 1 else counter
    if counter' = 0 then some index else find_close rest counter' (index + 1)

/-- The leading-sign patch of expression.cpp:219-221: a line starting with
a binary-operator character gets an implicit leading `Constant(0)`. -/
def initial_buffer (line : List Char) : List variant_t :=
  match line with
  | ch :: _ => if is_binary_f ch then [variant_t.const 0] else []
  | [] => []

/-- The scanning loop of `expression::parse_impl` (expression.cpp:213-355).
`fuel` only bounds the recursion depth (each step consumes input or starts
a strictly shorter sub-parse, so any fuel beyond the bound used in `parse`
is never exhausted on the inputs considered).  The parenthesis branch
restarts the full `parse_impl` behaviour on the enclosed substring
(initial buffer, empty sign stack, final drain), exactly as the recursive
call at expression.cpp:272 does. -/
def parseLoop : Nat → List Char → List variant_t → List Char → Except String (List variant_t)
  | 0, _, _, _ => .error "out of fuel"
  | fuel + 1, line, buffer, signs =>
    match line with
    | [] =>
      let out := buffer ++ signs.map sign_token
      .ok (if out.isEmpty then [variant_t.const 0] else out)
    | c :: rest =>
      match match_real line with
      | some m => parseLoop fuel m.rest (buffer ++ [variant_t.const (real_value m)]) signs
      | none =>
        if is_binary_f c then
          let sb := popStronger c signs buffer
          parseLoop fuel rest sb.2 (c :: sb.1)
        else if c = '(' then
          match find_close rest 1 1 with
          | none => .error "Unterminated parenthesis"
          | some idx =>
            if 1 < idx then
              let inner := rest.take (idx - 1)
              match parseLoop fuel inner (initial_buffer inner) [] with
              | .error e => .error e
              | .ok toks => parseLoop fuel (rest.drop idx) (buffer ++ toks) signs
            else
              parseLoop fuel (rest.drop idx) buffer signs
        else if c = ')' then
          .error "Closed parentheses without an opening correspective"
        else if is_space c then
          parseLoop fuel rest buffer signs
        else
          match match_fun line with
          | some ft => parseLoop fuel ft.2 buffer (ft.1 :: signs)
          | none =>
            if c.toUpper == 'P' && (match rest with | i :: _ => i.toUpper == 'I' | [] => false) then
              parseLoop fuel (rest.drop 1) (buffer ++ [variant_t.const pi_val]) signs
            else if c = 'e' then
              parseLoop fuel rest (buffer ++ [variant_t.const e_val]) signs
            else
              let invalid := line.takeWhile (fun ch => !(ch.isDigit || is_binary_f ch))
              if invalid.length > 1 then
                .error (String.mk invalid ++ " Unexpected token in parsing (name parameters must be 1 char long)")
              else
                parseLoop fuel rest (buffer ++ [variant_t.param c]) signs

/-- `expression::parse_impl` on one line: leading-sign patch, then the
scanning loop with empty operator stack. -/
def parse_impl (fuel : Nat) (line : List Char) : Except String (List variant_t) :=
  parseLoop fuel line (initial_buffer line) []

/-- `expression::parse` (expression.cpp:193-201): empty input yields the
single token `Constant(0)`; otherwise preparse then resolve. -/
def parse (src : String) : Except String (List variant_t) :=
  let chars := src.toList
  if chars.isEmpty then .ok [variant_t.const 0]
  else parse_impl (8 * chars.length + 8) (preparse chars)

/-- A stack entry of the builder loop (expression.cpp:401-428): the node
being filled, with `none` for a child slot not yet written.  A slot that
an operator child was placed into stays `none` on the parent frame until
that child's subtree is complete and re-attached (the source links the
child node into the parent immediately; re-attaching at pop/flush time
rebuilds the identical tree). -/
structure frame where
  content : variant_t
  left : Option node
  right : Option node
deriving DecidableEq, Repr

/-- The `Empty`-sentinel node pushed into a unary node's right slot
(expression.cpp:422). -/
def nothing_node : node := node.mk variant_t.nothing node.null node.null

/-- Materialise a frame as a tree node, unfilled slots becoming null
pointers. -/
def close_frame (f : frame) : node :=
  node.mk f.content (f.left.getD node.null) (f.right.getD node.null)

/-- Write a completed subtree into the first empty slot of a frame (left
before right, the slot-selection order of expression.cpp:408-413). -/
def attach (f : frame) (t : node) : frame :=
  if f.left = none then { f with left := some t }
  else { f with right := some t }

/-- Collapse the remaining stack at end of input: each frame is completed
(unfilled slots become null) and attached to the slot its parent reserved
for it. -/
def flush (top : frame) : List frame → node
  | [] => close_frame top
  | p :: stack => flush (attach p (close_frame top)) stack

/-- The builder loop of `expression::build_impl` (expression.cpp:404-428),
consuming the reversed token sequence: the top frame's first empty slot
receives the next token; a unary token is pushed with its right slot
pre-filled by the `Empty` sentinel, a binary token is pushed empty, leaves
are attached directly; a full top frame is popped (and re-attached)
without consuming a token.  Popping with an empty remaining stack is
`std::stack::top` on an empty stack in the source — undefined behaviour —
modelled as an error. -/
def buildLoop : Nat → List variant_t → List frame → Except String node
  | 0, _, _ => .error "out of fuel"
  | fuel + 1, tokens, stack =>
    match tokens with
    | [] =>
      match stack with
      | [] => .error "internal: empty build stack"
      | top :: rest => .ok (flush top rest)
    | tok :: rest =>
      match stack with
      | [] => .error "build stack underflow (undefined behavior in the source)"
      | top :: stk =>
        if top.left = none ∨ top.right = none then
          match tok with
          | variant_t.unary t =>
            buildLoop fuel rest
              ({ content := variant_t.unary t, left := none, right := some nothing_node } :: top :: stk)
          | variant_t.binary t =>
            buildLoop fuel rest
              ({ content := variant_t.binary t, left := none, right := none } :: top :: stk)
          | leaf =>
            buildLoop fuel rest (attach top (node.mk leaf node.null node.null) :: stk)
        else
          match stk with
          | [] => .error "build stack underflow (undefined behavior in the source)"
          | p :: stk' => buildLoop fuel (tok :: rest) (attach p (close_frame top) :: stk')

/-- `expression::build_impl` (expression.cpp:381-431): parse, then consume
the token sequence in reverse.  A leading (= last-emitted) `Constant` with
trailing tokens is "Bad parsing or semantics"; a lone operator or function
is "Function or operator without arguments"; a `Parameter` (or `Empty`)
first token enters the filling loop without any arity check. -/
def build_impl (src : String) : Except String node :=
  match parse src with
  | .error e => .error e
  | .ok symbols =>
    match symbols.reverse with
    | [] => .error "internal: empty symbol list"
    | first :: restRev =>
      match first with
      | variant_t.const v =>
        if symbols.length > 1 then .error "Bad parsing or semantics"
        else .ok (node.mk (variant_t.const v) node.null node.null)
      | variant_t.unary t =>
        if symbols.length = 1 then .error "Function or operator without arguments"
        else buildLoop (2 * symbols.length + 4) restRev [⟨variant_t.unary t, none, none⟩]
      | variant_t.binary t =>
        if symbols.length = 1 then .error "Function or operator without arguments"
        else buildLoop (2 * symbols.length + 4) restRev [⟨variant_t.binary t, none, none⟩]
      | other => buildLoop (2 * symbols.length + 4) restRev [⟨other, none, none⟩]

end Expr

namespace Expr

noncomputable section

/-- Truncating `static_cast<long>` conversion of a `double`
(round toward zero), used by `function::modulus` (expression.cpp:74). -/
def trunc_to_long (a : ℝ) : ℤ :=
  if a < 0 then ⌈a⌉ else ⌊a⌋

/-- `std::cbrt`: the real cube root, defined for negative arguments. -/
def cbrt (a : ℝ) : ℝ :=
  if a < 0 then -((-a) ^ ((1 : ℝ) / 3)) else a ^ ((1 : ℝ) / 3)

/-- Semantic node content mirroring `expr::variant_t` with the source's
`std::function` alternatives as real functions (`const_t` = `double`
idealised by `ℝ`). -/
inductive Content where
  | nothing
  | const (value : ℝ)
  | param (name : Char)
  | unary (f : ℝ → ℝ)
  | binary (f : ℝ → ℝ → ℝ)

/-- Semantic tree node; `null` models an empty `shared_ptr<node>`. -/
inductive snode where
  | null
  | mk (content : Content) (left right : snode)

/-- `detail::sign_to_unary` (expression.cpp:121-151): tag-to-function
lookup for unary functions, failing on an unknown tag exactly as the
source throws. -/
def sign_to_unary (ch : Char) : Except String (ℝ → ℝ) :=
  if ch = 's' then .ok Real.sin
  else if ch = 'c' then .ok Real.cos
  else if ch = 't' then .ok Real.tan
  else if ch = 'S' then .ok Real.arcsin
  else if ch = 'C' then .ok Real.arccos
  else if ch = 'T' then .ok Real.arctan
  else if ch = 'l' then .ok Real.log
  else if ch = 'e' then .ok Real.exp
  else if ch = '|' then .ok (fun a => |a|)
  else if ch = 'v' then .ok Real.sqrt
  else if ch = 'V' then .ok cbrt
  else .error ("Found bad operator without correspective function: ".push ch)

/-- `detail::sign_to_binary` (expression.cpp:99-119): tag-to-function
lookup for binary operators (`^` is `std::pow`, `%` casts both operands to
`long` and takes the truncated remainder); the unknown-tag error keeps the
source's spelling. -/
def sign_to_binary (ch : Char) : Except String (ℝ → ℝ → ℝ) :=
  if ch = '+' then .ok (fun a b => a + b)
  else if ch = '-' then .ok (fun a b => a - b)
  else if ch = '*' then .ok (fun a b => a * b)
  else if ch = '/' then .ok (fun a b => a / b)
  else if ch = '^' then .ok (fun a b => a ^ b)
  else if ch = '%' then .ok (fun a b => ((trunc_to_long a).tmod (trunc_to_long b) : ℝ))
  else .error ("Fount bad operator without correspective function: ".push ch)

/-- Interpret a token tree as a semantic tree: numeric constants are cast
to `ℝ`, operator tags are resolved through `sign_to_unary` /
`sign_to_binary` (the lookup the source performs while emitting tokens in
`parse_impl`). -/
def toSem : node → Except String snode
  | node.null => .ok snode.null
  | node.mk c l r =>
    match toSem l with
    | .error e => .error e
    | .ok l' =>
      match toSem r with
      | .error e => .error e
      | .ok r' =>
        match c with
        | variant_t.nothing => .ok (snode.mk Content.nothing l' r')
        | variant_t.const q => .ok (snode.mk (Content.const (q : ℝ)) l' r')
        | variant_t.param p => .ok (snode.mk (Content.param p) l' r')
        | variant_t.unary tag =>
          match sign_to_unary tag with
          | .error e => .error e
          | .ok f => .ok (snode.mk (Content.unary f) l' r')
        | variant_t.binary tag =>
          match sign_to_binary tag with
          | .error e => .error e
          | .ok f => .ok (snode.mk (Content.binary f) l' r')

/-- Parse and build a semantic tree from a source string. -/
def build_sem (src : String) : Except String snode :=
  match build_impl src with
  | .error e => .error e
  | .ok t => toSem t

/-- The parameter dictionary `std::map<char, const_t>`. -/
def Dict : Type := Char → Option ℝ

/-- The empty dictionary of a freshly constructed expression. -/
def empty_dict : Dict := fun _ => none

/-- `expression::set_param` (expression.cpp:612-616):
`insert_or_assign` on the dictionary. -/
def dict_insert (d : Dict) (name : Char) (value : ℝ) : Dict :=
  fun c => if c = name then some value else d c

/-- `detail::evalutable` (expression.cpp:22-38): a subtree is evaluable
iff it is a constant, or an operator node all of whose operand children
are evaluable; null pointers, parameters and `Empty` sentinels are not. -/
def evalutable : snode → Bool
  | snode.null => false
  | snode.mk (Content.const _) _ _ => true
  | snode.mk (Content.binary _) l r => evalutable l && evalutable r
  | snode.mk (Content.unary _) l _ => evalutable l
  | snode.mk _ _ _ => false

/-- Dictionary-mode `expression::eval_impl` (expression.cpp:543-573).
A `Parameter` resolves through the dictionary, failing with the
"Unassigned parameter" error when absent; a binary node applies its
function to (right value, left value); an `Empty` sentinel fails fatally.
Evaluating a null child pointer is undefined behaviour in the source,
modelled as an error. -/
def eval_impl (d : Dict) : snode → Except String ℝ
  | snode.null => .error "dereferenced null node"
  | snode.mk (Content.const v) _ _ => .ok v
  | snode.mk (Content.param p) _ _ =>
    match d p with
    | some v => .ok v
    | none => .error ("Unassigned parameter ".push p)
  | snode.mk (Content.unary f) l _ =>
    match eval_impl d l with
    | .error e => .error e
    | .ok v => .ok (f v)
  | snode.mk (Content.binary f) l r =>
    match eval_impl d r with
    | .error e => .error e
    | .ok rv =>
      match eval_impl d l with
      | .error e => .error e
      | .ok lv => .ok (f rv lv)
  | snode.mk Content.nothing _ _ => .error "Found (literally) nothing..."

/-- Override-mode `expression::eval_impl` (expression.cpp:575-610): a
`Parameter` equal to the override name takes the override value before the
dictionary is consulted; everything else is as in dictionary mode. -/
def eval_impl_over (d : Dict) (x : Char) (value : ℝ) : snode → Except String ℝ
  | snode.null => .error "dereferenced null node"
  | snode.mk (Content.const v) _ _ => .ok v
  | snode.mk (Content.param p) _ _ =>
    if p = x then .ok value
    else
      match d p with
      | some v => .ok v
      | none => .error ("Unassigned parameter ".push p)
  | snode.mk (Content.unary f) l _ =>
    match eval_impl_over d x value l with
    | .error e => .error e
    | .ok v => .ok (f v)
  | snode.mk (Content.binary f) l r =>
    match eval_impl_over d x value r with
    | .error e => .error e
    | .ok rv =>
      match eval_impl_over d x value l with
      | .error e => .error e
      | .ok lv => .ok (f rv lv)
  | snode.mk Content.nothing _ _ => .error "Found (literally) nothing..."

/-- The right-child fusion step of `expression::optimize_impl`
(expression.cpp:454-469): a binary `f` whose right child is unary `g`
becomes the binary `fun a b => f a (g b)` keeping the old left child and
adopting `g`'s child as right child; no change if the right child is not
unary. -/
def fuse_right (f : ℝ → ℝ → ℝ) (l r : snode) : snode :=
  match r with
  | snode.mk (Content.unary g) rl _ =>
    snode.mk (Content.binary (fun a b => f a (g b))) l rl
  | _ => snode.mk (Content.binary f) l r

/-- The left-child fusion step of `expression::optimize_impl`
(expression.cpp:470-485), applied to the node produced by `fuse_right`
(the source re-reads the node's current content): a binary `f` whose left
child is unary `g` becomes `fun a b => f (g a) b`, adopting `g`'s child as
left child. -/
def fuse_left : snode → snode
  | snode.mk (Content.binary f) (snode.mk (Content.unary g) ll _) r =>
    snode.mk (Content.binary (fun a b => f (g a) b)) ll r
  | n => n

/-- The unary fusion steps of `expression::optimize_impl`
(expression.cpp:496-527): unary over unary composes into one unary node
(whose right slot is left unset, i.e. null); unary over binary composes
into one binary node inheriting the binary's children; otherwise the node
is rebuilt unchanged around its optimised child. -/
def fuse_unary (f : ℝ → ℝ) (l r : snode) : snode :=
  match l with
  | snode.mk (Content.unary g) ll _ =>
    snode.mk (Content.unary (fun a => f (g a))) ll snode.null
  | snode.mk (Content.binary g) gl gr =>
    snode.mk (Content.binary (fun a b => f (g a b))) gl gr
  | _ => snode.mk (Content.unary f) l r

/-- `expression::optimize_impl` (expression.cpp:441-529), post-order:
children are optimised first; a fully evaluable operator node is folded to
a `Constant` holding its evaluated value (children are left in place, as
in the source); otherwise adjacent operator layers are fused.  Recursing
into a null child pointer is undefined behaviour in the source, modelled
as an error. -/
def optimize_impl (d : Dict) : snode → Except String snode
  | snode.null => .error "dereferenced null node"
  | snode.mk (Content.binary f) l r =>
    match optimize_impl d l with
    | .error e => .error e
    | .ok l' =>
      match optimize_impl d r with
      | .error e => .error e
      | .ok r' =>
        if evalutable (snode.mk (Content.binary f) l' r') then
          match eval_impl d (snode.mk (Content.binary f) l' r') with
          | .error e => .error e
          | .ok v => .ok (snode.mk (Content.const v) l' r')
        else
          .ok (fuse_left (fuse_right f l' r'))
  | snode.mk (Content.unary f) l r =>
    match optimize_impl d l with
    | .error e => .error e
    | .ok l' =>
      if evalutable l' then
        match eval_impl d (snode.mk (Content.unary f) l' r) with
        | .error e => .error e
        | .ok v => .ok (snode.mk (Content.const v) l' r)
      else
        .ok (fuse_unary f l' r)
  | snode.mk c l r => .ok (snode.mk c l r)

/-- The `expr::expression` object: one owned tree (possibly null) and the
parameter dictionary (expression.hpp:51-54). -/
structure Expression where
  head : snode
  dict : Dict

/-- Constructing an expression from a string with the default `build`
policy (expression.cpp:174-191, 357-365): the dictionary starts empty. -/
def Expression.build (source : String) : Except String Expression :=
  match build_sem source with
  | .error e => .error e
  | .ok t => .ok ⟨t, empty_dict⟩

/-- `expression::set_param` (expression.cpp:612-616). -/
def Expression.set_param (e : Expression) (name : Char) (value : ℝ) : Expression :=
  ⟨e.head, dict_insert e.dict name value⟩

/-- `expression::eval()` (expression.cpp:531-535): no value when no tree
exists; evaluation exceptions propagate. -/
def Expression.eval (e : Expression) : Except String (Option ℝ) :=
  match e.head with
  | snode.null => .ok none
  | h =>
    match eval_impl e.dict h with
    | .error err => .error err
    | .ok v => .ok (some v)

/-- `expression::eval(char, const_t)` (expression.cpp:537-541). -/
def Expression.evalAt (e : Expression) (x : Char) (value : ℝ) : Except String (Option ℝ) :=
  match e.head with
  | snode.null => .ok none
  | h =>
    match eval_impl_over e.dict x value h with
    | .error err => .error err
    | .ok v => .ok (some v)

/-- `expression::optimize` (expression.cpp:433-439): a no-op when no tree
exists, otherwise the in-place rewrite of the tree. -/
def Expression.optimize (e : Expression) : Except String Expression :=
  match e.head with
  | snode.null => .ok e
  | h =>
    match optimize_impl e.dict h with
    | .error err => .error err
    | .ok h' => .ok ⟨h', e.dict⟩

/-- The one-shot `expr::compute(source)` helper (expression.hpp:89-101). -/
def compute (source : String) : Except String (Option ℝ) :=
  match Expression.build source with
  | .error e => .error e
  | .ok e => e.eval

end

end Expr

namespace Expr

/-- The tree invariant stated by the spec: every binary node has two
non-null children and every unary node a non-null left child. -/
def tree_invariant : node → Bool
  | node.null => true
  | node.mk c l r =>
    (match c, l, r with
     | variant_t.binary _, node.null, _ => false
     | variant_t.binary _, _, node.null => false
     | variant_t.unary _, node.null, _ => false
     | _, _, _ => true) && tree_invariant l && tree_invariant r

/-- A node whose content is a `Parameter` or the `Empty` sentinel. -/
def leafish : snode → Prop
  | snode.mk (Content.param _) _ _ => True
  | snode.mk Content.nothing _ _ => True
  | _ => False

/-- A node whose content is not a unary function. -/
def not_unary_node : snode → Prop
  | snode.mk (Content.unary _) _ _ => False
  | _ => True

/-- Structural characterisation of the trees `optimize_impl` produces;
such trees are fixed points of a second `optimize_impl` run. -/
def IsOptimized : snode → Prop
  | snode.null => False
  | snode.mk (Content.unary _) l _ => leafish l
  | snode.mk (Content.binary _) l r =>
    IsOptimized l ∧ IsOptimized r ∧ (evalutable l && evalutable r) = false ∧
    not_unary_node l ∧ not_unary_node r
  | snode.mk _ _ _ => True

/-- Every node position touched by `eval_impl` is non-null and not the
`Empty` sentinel (unary right slots are never touched). -/
def eval_ok_shape : snode → Prop
  | snode.null => False
  | snode.mk (Content.const _) _ _ => True
  | snode.mk (Content.param _) _ _ => True
  | snode.mk (Content.unary _) l _ => eval_ok_shape l
  | snode.mk (Content.binary _) l r => eval_ok_shape l ∧ eval_ok_shape r
  | snode.mk Content.nothing _ _ => False

/-- Every parameter in evaluation-reachable position is bound in the
dictionary. -/
def bound_params (d : Dict) : snode → Prop
  | snode.mk (Content.param p) _ _ => (d p).isSome
  | snode.mk (Content.unary _) l _ => bound_params d l
  | snode.mk (Content.binary _) l r => bound_params d l ∧ bound_params d r
  | _ => True

end Expr

namespace Expr

theorem leafish_opt (d : Dict) {l : snode} (h : leafish l) : optimize_impl d l = .ok l := by
  cases l with
  | null => exact absurd h (by simp [leafish])
  | mk c a b => cases c <;> simp_all [leafish, optimize_impl]

theorem leafish_not_evalutable {l : snode} (h : leafish l) : evalutable l = false := by
  cases l with
  | null => simp [evalutable]
  | mk c a b => cases c <;> simp_all [leafish, evalutable]

theorem leafish_IsOptimized {l : snode} (h : leafish l) : IsOptimized l := by
  cases l with
  | null => exact absurd h (by simp [leafish])
  | mk c a b => cases c <;> simp_all [leafish, IsOptimized]

theorem leafish_not_unary {l : snode} (h : leafish l) : not_unary_node l := by
  cases l with
  | null => simp [not_unary_node]
  | mk c a b => cases c <;> simp_all [leafish, not_unary_node]

theorem fuse_right_default {f : ℝ → ℝ → ℝ} {l r : snode} (h : not_unary_node r) :
    fuse_right f l r = snode.mk (Content.binary f) l r := by
  cases r with
  | null => simp [fuse_right]
  | mk c a b => cases c <;> simp_all [not_unary_node, fuse_right]

theorem fuse_left_default {f : ℝ → ℝ → ℝ} {l r : snode} (h : not_unary_node l) :
    fuse_left (snode.mk (Content.binary f) l r) = snode.mk (Content.binary f) l r := by
  cases l with
  | null => simp [fuse_left]
  | mk c a b => cases c <;> simp_all [not_unary_node, fuse_left]

theorem fuse_unary_default {f : ℝ → ℝ} {l r : snode} (h : leafish l) :
    fuse_unary f l r = snode.mk (Content.unary f) l r := by
  cases l with
  | null => simp [fuse_unary]
  | mk c a b => cases c <;> simp_all [leafish, fuse_unary]

theorem optimize_fixed (d : Dict) : ∀ n, IsOptimized n → optimize_impl d n = .ok n := by
  intro n
  induction n with
  | null => intro h; exact absurd h (by simp [IsOptimized])
  | mk c l r ihl ihr =>
    intro h
    cases c with
    | nothing => simp [optimize_impl]
    | const v => simp [optimize_impl]
    | param p => simp [optimize_impl]
    | unary f =>
      have hl : leafish l := h
      rw [optimize_impl, leafish_opt d hl]
      simp [leafish_not_evalutable hl, fuse_unary_default hl]
    | binary f =>
      obtain ⟨h1, h2, h3, h4, h5⟩ := h
      rw [optimize_impl, ihl h1, ihr h2]
      simp only [evalutable, h3, Bool.false_eq_true, if_false]
      rw [fuse_right_default h5, fuse_left_default h4]


theorem evalutable_unary_child {f : ℝ → ℝ} {l r : snode} :
    evalutable (snode.mk (Content.unary f) l r) = evalutable l := by
  simp [evalutable]

theorem optimize_establishes (d : Dict) :
    ∀ n n', optimize_impl d n = .ok n' → IsOptimized n' := by
  intro n
  induction n with
  | null => intro n' h; simp [optimize_impl] at h
  | mk c l r ihl ihr =>
    intro n' h
    cases c with
    | nothing => simp [optimize_impl] at h; simp [← h, IsOptimized]
    | const v => simp [optimize_impl] at h; simp [← h, IsOptimized]
    | param p => simp [optimize_impl] at h; simp [← h, IsOptimized]
    | unary f =>
      rw [optimize_impl] at h
      cases hl : optimize_impl d l with
      | error e => rw [hl] at h; exact absurd h (by simp)
      | ok l' =>
        rw [hl] at h
        dsimp only at h
        have hol : IsOptimized l' := ihl l' hl
        by_cases hev : evalutable l' = true
        · rw [if_pos hev] at h
          cases he : eval_impl d (snode.mk (Content.unary f) l' r) with
          | error e => rw [he] at h; exact absurd h (by simp)
          | ok v =>
            rw [he] at h
            simp at h
            simp [← h, IsOptimized]
        · rw [if_neg hev] at h
          simp at h
          subst h
          cases l' with
          | null => exact absurd hol (by simp [IsOptimized])
          | mk c2 a2 b2 =>
            cases c2 with
            | nothing => simp [fuse_unary, IsOptimized, leafish]
            | const v2 => exact absurd (by simp [evalutable]) hev
            | param p2 => simp [fuse_unary, IsOptimized, leafish]
            | unary g =>
              have : leafish a2 := hol
              simp [fuse_unary, IsOptimized, this]
            | binary g =>
              obtain ⟨g1, g2, g3, g4, g5⟩ := hol
              simp only [fuse_unary, IsOptimized]
              exact ⟨g1, g2, g3, g4, g5⟩
    | binary f =>
      rw [optimize_impl] at h
      cases hl : optimize_impl d l with
      | error e => rw [hl] at h; exact absurd h (by simp)
      | ok l' =>
        rw [hl] at h
        dsimp only at h
        cases hr : optimize_impl d r with
        | error e => rw [hr] at h; exact absurd h (by simp)
        | ok r' =>
          rw [hr] at h
          dsimp only at h
          have hol : IsOptimized l' := ihl l' hl
          have hor : IsOptimized r' := ihr r' hr
          by_cases hev : evalutable (snode.mk (Content.binary f) l' r') = true
          · rw [if_pos hev] at h
            cases he : eval_impl d (snode.mk (Content.binary f) l' r') with
            | error e => rw [he] at h; exact absurd h (by simp)
            | ok v =>
              rw [he] at h
              simp at h
              simp [← h, IsOptimized]
          · rw [if_neg hev] at h
            simp at h
            subst h
            have hev' : (evalutable l' && evalutable r') = false := by
              simpa [evalutable] using hev
            -- case split on whether r' is unary
            cases r' with
            | null => exact absurd hor (by simp [IsOptimized])
            | mk cr ar br =>
              cases cr with
              | unary g =>
                have har : leafish ar := hor
                have hfr : fuse_right f l' (snode.mk (Content.unary g) ar br) =
                    snode.mk (Content.binary fun a b => f a (g b)) l' ar := by
                  simp [fuse_right]
                rw [hfr]
                have hev2 : (evalutable l' && evalutable ar) = false := by
                  simpa [evalutable] using hev'
                -- now fuse_left on the new node
                cases l' with
                | null => exact absurd hol (by simp [IsOptimized])
                | mk cl al bl =>
                  cases cl with
                  | unary g2 =>
                    have hal : leafish al := hol
                    simp only [fuse_left, IsOptimized]
                    refine ⟨leafish_IsOptimized hal, leafish_IsOptimized har, ?_,
                      leafish_not_unary hal, leafish_not_unary har⟩
                    simp [leafish_not_evalutable hal]
                  | nothing =>
                    simp only [fuse_left, IsOptimized]
                    refine ⟨hol, leafish_IsOptimized har, ?_, by simp [not_unary_node],
                      leafish_not_unary har⟩
                    simp [evalutable]
                  | const v2 =>
                    simp only [fuse_left, IsOptimized]
                    refine ⟨hol, leafish_IsOptimized har, ?_, by simp [not_unary_node],
                      leafish_not_unary har⟩
                    simpa [evalutable] using hev2
                  | param p2 =>
                    simp only [fuse_left, IsOptimized]
                    refine ⟨hol, leafish_IsOptimized har, ?_, by simp [not_unary_node],
                      leafish_not_unary har⟩
                    simp [evalutable]
                  | binary g2 =>
                    simp only [fuse_left, IsOptimized]
                    refine ⟨hol, leafish_IsOptimized har, ?_, by simp [not_unary_node],
                      leafish_not_unary har⟩
                    simpa [evalutable] using hev2
              | nothing =>
                rw [fuse_right_default (by simp [not_unary_node])]
                cases l' with
                | null => exact absurd hol (by simp [IsOptimized])
                | mk cl al bl =>
                  cases cl with
                  | unary g2 =>
                    have hal : leafish al := hol
                    simp only [fuse_left, IsOptimized]
                    refine ⟨leafish_IsOptimized hal, hor, ?_, leafish_not_unary hal,
                      by simp [not_unary_node]⟩
                    simp [leafish_not_evalutable hal]
                  | nothing =>
                    rw [fuse_left_default (by simp [not_unary_node])]
                    exact ⟨hol, hor, hev', by simp [not_unary_node], by simp [not_unary_node]⟩
                  | const v2 =>
                    rw [fuse_left_default (by simp [not_unary_node])]
                    exact ⟨hol, hor, hev', by simp [not_unary_node], by simp [not_unary_node]⟩
                  | param p2 =>
                    rw [fuse_left_default (by simp [not_unary_node])]
                    exact ⟨hol, hor, hev', by simp [not_unary_node], by simp [not_unary_node]⟩
                  | binary g2 =>
                    rw [fuse_left_default (by simp [not_unary_node])]
                    exact ⟨hol, hor, hev', by simp [not_unary_node], by simp [not_unary_node]⟩
              | const v2 =>
                rw [fuse_right_default (by simp [not_unary_node])]
                cases l' with
                | null => exact absurd hol (by simp [IsOptimized])
                | mk cl al bl =>
                  cases cl with
                  | unary g2 =>
                    have hal : leafish al := hol
                    simp only [fuse_left, IsOptimized]
                    refine ⟨leafish_IsOptimized hal, hor, ?_, leafish_not_unary hal,
                      by simp [not_unary_node]⟩
                    simp [leafish_not_evalutable hal]
                  | nothing =>
                    rw [fuse_left_default (by simp [not_unary_node])]
                    exact ⟨hol, hor, hev', by simp [not_unary_node], by simp [not_unary_node]⟩
                  | const v3 =>
                    rw [fuse_left_default (by simp [not_unary_node])]
                    exact ⟨hol, hor, hev', by simp [not_unary_node], by simp [not_unary_node]⟩
                  | param p2 =>
                    rw [fuse_left_default (by simp [not_unary_node])]
                    exact ⟨hol, hor, hev', by simp [not_unary_node], by simp [not_unary_node]⟩
                  | binary g2 =>
                    rw [fuse_left_default (by simp [not_unary_node])]
                    exact ⟨hol, hor, hev', by simp [not_unary_node], by simp [not_unary_node]⟩
              | param p2 =>
                rw [fuse_right_default (by simp [not_unary_node])]
                cases l' with
                | null => exact absurd hol (by simp [IsOptimized])
                | mk cl al bl =>
                  cases cl with
                  | unary g2 =>
                    have hal : leafish al := hol
                    simp only [fuse_left, IsOptimized]
                    refine ⟨leafish_IsOptimized hal, hor, ?_, leafish_not_unary hal,
                      by simp [not_unary_node]⟩
                    simp [leafish_not_evalutable hal]
                  | nothing =>
                    rw [fuse_left_default (by simp [not_unary_node])]
                    exact ⟨hol, hor, hev', by simp [not_unary_node], by simp [not_unary_node]⟩
                  | const v3 =>
                    rw [fuse_left_default (by simp [not_unary_node])]
                    exact ⟨hol, hor, hev', by simp [not_unary_node], by simp [not_unary_node]⟩
                  | param p3 =>
                    rw [fuse_left_default (by simp [not_unary_node])]
                    exact ⟨hol, hor, hev', by simp [not_unary_node], by simp [not_unary_node]⟩
                  | binary g2 =>
                    rw [fuse_left_default (by simp [not_unary_node])]
                    exact ⟨hol, hor, hev', by simp [not_unary_node], by simp [not_unary_node]⟩
              | binary g =>
                rw [fuse_right_default (by simp [not_unary_node])]
                cases l' with
                | null => exact absurd hol (by simp [IsOptimized])
                | mk cl al bl =>
                  cases cl with
                  | unary g2 =>
                    have hal : leafish al := hol
                    simp only [fuse_left, IsOptimized]
                    refine ⟨leafish_IsOptimized hal, hor, ?_, leafish_not_unary hal,
                      by simp [not_unary_node]⟩
                    simp [leafish_not_evalutable hal]
                  | nothing =>
                    rw [fuse_left_default (by simp [not_unary_node])]
                    exact ⟨hol, hor, hev', by simp [not_unary_node], by simp [not_unary_node]⟩
                  | const v3 =>
                    rw [fuse_left_default (by simp [not_unary_node])]
                    exact ⟨hol, hor, hev', by simp [not_unary_node], by simp [not_unary_node]⟩
                  | param p3 =>
                    rw [fuse_left_default (by simp [not_unary_node])]
                    exact ⟨hol, hor, hev', by simp [not_unary_node], by simp [not_unary_node]⟩
                  | binary g2 =>
                    rw [fuse_left_default (by simp [not_unary_node])]
                    exact ⟨hol, hor, hev', by simp [not_unary_node], by simp [not_unary_node]⟩

end Expr

namespace Expr

theorem sign_priority_ge (c : Char) : -1 ≤ sign_priority c := by
  unfold sign_priority
  dsimp only
  split_ifs <;> norm_num

theorem stronger_sign_mod_false (s : Char) : stronger_sign '%' s = false := by
  have h := sign_priority_ge s
  simp only [stronger_sign, decide_eq_false_iff_not, not_lt]
  calc sign_priority '%' = -1 := by decide
    _ ≤ sign_priority s := h

theorem popStronger_mod_drains : ∀ (signs : List Char) (buffer : List variant_t),
    (popStronger '%' signs buffer).1 = [] := by
  intro signs
  induction signs with
  | nil => intro buffer; simp [popStronger]
  | cons s rest ih =>
    intro buffer
    rw [popStronger, stronger_sign_mod_false s]
    simpa using ih (buffer ++ [sign_token s])

theorem eval_total (d : Dict) :
    ∀ t, eval_ok_shape t → bound_params d t → ∃ v, eval_impl d t = .ok v := by
  intro t
  induction t with
  | null => intro h; exact absurd h (by simp [eval_ok_shape])
  | mk c l r ihl ihr =>
    intro hs hb
    cases c with
    | nothing => exact absurd hs (by simp [eval_ok_shape])
    | const v => exact ⟨v, by simp [eval_impl]⟩
    | param p =>
      have : (d p).isSome := hb
      obtain ⟨w, hw⟩ := Option.isSome_iff_exists.mp this
      exact ⟨w, by simp [eval_impl, hw]⟩
    | unary f =>
      obtain ⟨v, hv⟩ := ihl hs hb
      exact ⟨f v, by rw [eval_impl, hv]⟩
    | binary f =>
      obtain ⟨hsl, hsr⟩ := hs
      obtain ⟨hbl, hbr⟩ := hb
      obtain ⟨lv, hlv⟩ := ihl hsl hbl
      obtain ⟨rv, hrv⟩ := ihr hsr hbr
      exact ⟨f rv lv, by rw [eval_impl, hrv, hlv]⟩

end Expr

namespace Expr

/-- C2: The spec claims every accepted `build` yields binary nodes with two
non-null children and unary nodes with a non-null left child, including for
inputs such as `"1+"`.  The code violates this: `build` accepts `"1+"` and
produces a root `+` node whose right child is null. -/
theorem build_accepts_dangling_operator :
    build_impl "1+" = .ok (node.mk (variant_t.binary '+')
      (node.mk (variant_t.const 1) node.null node.null) node.null) ∧
    tree_invariant (node.mk (variant_t.binary '+')
      (node.mk (variant_t.const 1) node.null node.null) node.null) = false := by
  constructor
  · decide
  · decide

/-- C8: Malformed inputs fail construction with the claimed descriptive
errors: unterminated parenthesis, unmatched closing parenthesis, and a
function with no arguments; the `Except` result carries no partial tree. -/
theorem malformed_input_errors :
    build_impl "(1+2" = .error "Unterminated parenthesis" ∧
    build_impl "1+2)" = .error "Closed parentheses without an opening correspective" ∧
    build_impl "sin" = .error "Function or operator without arguments" := by
  refine ⟨?_, ?_, ?_⟩ <;> decide

/-- C9: When the token sequence ends with a `Parameter` but has earlier
tokens (input `"3x"`), build raises no error — the trailing-tokens check
fires only for a trailing `Constant`, as `"3 4"` shows — and evaluation
returns just the parameter's value: 5 with `x` bound to 5, not 15 and not
a failure. -/
theorem trailing_tokens_after_param :
    build_impl "3x" = .ok (node.mk (variant_t.param 'x')
      (node.mk (variant_t.const 3) node.null node.null) node.null) ∧
    (match Expression.build "3x" with
      | Except.error e => Except.error e
      | Except.ok e => (e.set_param 'x' 5).eval) = .ok (some 5) ∧
    (5 : ℝ) ≠ 15 ∧
    build_impl "3 4" = .error "Bad parsing or semantics" := by
  refine ⟨by decide, ?_, by norm_num, by decide⟩
  have h : build_impl "3x" = .ok (node.mk (variant_t.param 'x')
      (node.mk (variant_t.const 3) node.null node.null) node.null) := by decide
  unfold Expression.build build_sem
  rw [h]
  simp [toSem, Expression.set_param, Expression.eval, eval_impl, dict_insert, empty_dict]

/-- C7: Preprocessing inserts an implicit `*` between a closing parenthesis
or a digit and a following `(`; `"2(3+4)"` evaluates to 14 and
`"(1+1)(2+2)"` to 8. -/
theorem implicit_multiplication_eval :
    preparse "2(3+4)".toList = "2*(3+4)".toList ∧
    preparse "(1+1)(2+2)".toList = "(1+1)*(2+2)".toList ∧
    compute "2(3+4)" = .ok (some 14) ∧
    compute "(1+1)(2+2)" = .ok (some 8) := by
  refine ⟨by decide, by decide, ?_, ?_⟩
  · have h : build_impl "2(3+4)" = .ok (node.mk (variant_t.binary '*')
        (node.mk (variant_t.binary '+')
          (node.mk (variant_t.const 4) node.null node.null)
          (node.mk (variant_t.const 3) node.null node.null))
        (node.mk (variant_t.const 2) node.null node.null)) := by decide
    unfold compute Expression.build build_sem
    rw [h]
    simp [toSem, sign_to_binary, Expression.eval, eval_impl]
    norm_num
  · have h : build_impl "(1+1)(2+2)" = .ok (node.mk (variant_t.binary '*')
        (node.mk (variant_t.binary '+')
          (node.mk (variant_t.const 2) node.null node.null)
          (node.mk (variant_t.const 2) node.null node.null))
        (node.mk (variant_t.binary '+')
          (node.mk (variant_t.const 1) node.null node.null)
          (node.mk (variant_t.const 1) node.null node.null))) := by decide
    unfold compute Expression.build build_sem
    rw [h]
    simp [toSem, sign_to_binary, Expression.eval, eval_impl]
    norm_num

/-- C10: `%` has priority -1, strictly below every other binary operator
and every function tag of the priority table, so the pop loop always
drains the whole pending-operator stack before `%` is pushed, while every
other operator arriving later is strictly stronger than a pending `%` and
pops nothing: `"1+2%3"` parses as `(1+2)%3` and evaluates to 0. -/
theorem modulus_lowest_priority :
    sign_priority '%' = -1 ∧
    (∀ c : Char, is_binary_f c = true → c ≠ '%' → sign_priority '%' < sign_priority c) ∧
    (∀ c : Char, c ∈ (['s', 'c', 't', 'e', 'l', 'a', 'v'] : List Char) →
      sign_priority '%' < sign_priority c) ∧
    (∀ (signs : List Char) (buffer : List variant_t),
      (popStronger '%' signs buffer).1 = []) ∧
    (∀ c : Char, is_binary_f c = true → c ≠ '%' → stronger_sign c '%' = true) ∧
    compute "1+2%3" = .ok (some 0) := by
  refine ⟨by decide, ?_, ?_, popStronger_mod_drains, ?_, ?_⟩
  · intro c hc hne
    simp only [is_binary_f, Bool.or_eq_true, beq_iff_eq] at hc
    rcases hc with ((((rfl | rfl) | rfl) | rfl) | rfl) | rfl
    · decide
    · decide
    · decide
    · decide
    · decide
    · exact absurd rfl hne
  · intro c hc
    fin_cases hc <;> decide
  · intro c hc hne
    simp only [is_binary_f, Bool.or_eq_true, beq_iff_eq] at hc
    rcases hc with ((((rfl | rfl) | rfl) | rfl) | rfl) | rfl
    · decide
    · decide
    · decide
    · decide
    · decide
    · exact absurd rfl hne
  · have h : build_impl "1+2%3" = .ok (node.mk (variant_t.binary '%')
        (node.mk (variant_t.const 3) node.null node.null)
        (node.mk (variant_t.binary '+')
          (node.mk (variant_t.const 2) node.null node.null)
          (node.mk (variant_t.const 1) node.null node.null))) := by decide
    unfold compute Expression.build build_sem
    rw [h]
    simp [toSem, sign_to_binary, Expression.eval, eval_impl, trunc_to_long]

/-- Witness for `modulus_lowest_priority` at the concrete operator `+`. -/
theorem modulus_lowest_priority_witness :
    sign_priority '%' < sign_priority '+' ∧ stronger_sign '+' '%' = true :=
  ⟨modulus_lowest_priority.2.1 '+' (by decide) (by decide),
   modulus_lowest_priority.2.2.2.2.1 '+' (by decide) (by decide)⟩

end Expr

namespace Expr

/-- C1 (code bug): the optimizer is not semantics-preserving.  Fusing a
`BinaryOperator` with a `UnaryOperator` child composes the unary function
onto the wrong argument of the stored (right-value, left-value) binary
function: `"sin(x)-1"` evaluates to `sin 0 - 1 = -1` at `x = 0` before
`optimize()` but to `0 - sin 1` after, and `"1-sin(x)"` evaluates to
`1 - sin 0 = 1` before but to `sin 1` after; both pairs differ. -/
theorem optimize_fusion_changes_eval :
    (∃ t t', build_sem "sin(x)-1" = .ok t ∧
      optimize_impl empty_dict t = .ok t' ∧
      eval_impl_over empty_dict 'x' 0 t = .ok (-1) ∧
      eval_impl_over empty_dict 'x' 0 t' = .ok (0 - Real.sin 1) ∧
      (-1 : ℝ) ≠ 0 - Real.sin 1) ∧
    (∃ t t', build_sem "1-sin(x)" = .ok t ∧
      optimize_impl empty_dict t = .ok t' ∧
      eval_impl_over empty_dict 'x' 0 t = .ok 1 ∧
      eval_impl_over empty_dict 'x' 0 t' = .ok (Real.sin 1) ∧
      (1 : ℝ) ≠ Real.sin 1) := by
  have hsin : Real.sin 1 < 1 := Real.sin_lt one_pos
  constructor
  · have h : build_impl "sin(x)-1" = .ok (node.mk (variant_t.binary '-')
        (node.mk (variant_t.const 1) node.null node.null)
        (node.mk (variant_t.unary 's')
          (node.mk (variant_t.param 'x') node.null node.null)
          (node.mk variant_t.nothing node.null node.null))) := by decide
    refine ⟨snode.mk (Content.binary (fun a b => a - b))
        (snode.mk (Content.const ((1:ℚ):ℝ)) snode.null snode.null)
        (snode.mk (Content.unary Real.sin)
          (snode.mk (Content.param 'x') snode.null snode.null)
          (snode.mk Content.nothing snode.null snode.null)),
      snode.mk (Content.binary (fun a b => a - Real.sin b))
        (snode.mk (Content.const ((1:ℚ):ℝ)) snode.null snode.null)
        (snode.mk (Content.param 'x') snode.null snode.null), ?_, ?_, ?_, ?_, ?_⟩
    · unfold build_sem
      rw [h]
      simp [toSem, sign_to_unary, sign_to_binary]
    · simp [optimize_impl, evalutable, fuse_right, fuse_left, fuse_unary]
    · simp [eval_impl_over, empty_dict]
    · simp [eval_impl_over, empty_dict]
    · intro hc
      nlinarith [hsin]
  · have h : build_impl "1-sin(x)" = .ok (node.mk (variant_t.binary '-')
        (node.mk (variant_t.unary 's')
          (node.mk (variant_t.param 'x') node.null node.null)
          (node.mk variant_t.nothing node.null node.null))
        (node.mk (variant_t.const 1) node.null node.null)) := by decide
    refine ⟨snode.mk (Content.binary (fun a b => a - b))
        (snode.mk (Content.unary Real.sin)
          (snode.mk (Content.param 'x') snode.null snode.null)
          (snode.mk Content.nothing snode.null snode.null))
        (snode.mk (Content.const ((1:ℚ):ℝ)) snode.null snode.null),
      snode.mk (Content.binary (fun a b => Real.sin a - b))
        (snode.mk (Content.param 'x') snode.null snode.null)
        (snode.mk (Content.const ((1:ℚ):ℝ)) snode.null snode.null), ?_, ?_, ?_, ?_, ?_⟩
    · unfold build_sem
      rw [h]
      simp [toSem, sign_to_unary, sign_to_binary]
    · simp [optimize_impl, evalutable, fuse_right, fuse_left, fuse_unary]
    · simp [eval_impl_over, empty_dict]
    · simp [eval_impl_over, empty_dict]
    · intro hc
      nlinarith [hsin]

/-- C4: a `Parameter` resolves to the override value when the name matches
(even when the dictionary also binds it), else to the dictionary entry,
else fails with the "Unassigned parameter" error naming it; concretely,
for `"x+1"`, `set_param('x', 4)` then `eval()` yields 5 and `eval('x', 10)`
with no prior binding yields 11. -/
theorem param_resolution :
    (∀ (d : Dict) (x : Char) (v : ℝ) (l r : snode),
      eval_impl_over d x v (snode.mk (Content.param x) l r) = .ok v) ∧
    (∀ (d : Dict) (x p : Char) (v w : ℝ) (l r : snode), p ≠ x → d p = some w →
      eval_impl_over d x v (snode.mk (Content.param p) l r) = .ok w) ∧
    (∀ (d : Dict) (x p : Char) (v : ℝ) (l r : snode), p ≠ x → d p = none →
      eval_impl_over d x v (snode.mk (Content.param p) l r) =
        .error ("Unassigned parameter ".push p)) ∧
    (∀ (d : Dict) (p : Char) (w : ℝ) (l r : snode), d p = some w →
      eval_impl d (snode.mk (Content.param p) l r) = .ok w) ∧
    (∀ (d : Dict) (p : Char) (l r : snode), d p = none →
      eval_impl d (snode.mk (Content.param p) l r) =
        .error ("Unassigned parameter ".push p)) ∧
    (match Expression.build "x+1" with
      | Except.error e => Except.error e
      | Except.ok e => (e.set_param 'x' 4).eval) = .ok (some 5) ∧
    (match Expression.build "x+1" with
      | Except.error e => Except.error e
      | Except.ok e => e.evalAt 'x' 10) = .ok (some 11) := by
  have h : build_impl "x+1" = .ok (node.mk (variant_t.binary '+')
      (node.mk (variant_t.const 1) node.null node.null)
      (node.mk (variant_t.param 'x') node.null node.null)) := by decide
  refine ⟨?_, ?_, ?_, ?_, ?_, ?_, ?_⟩
  · intro d x v l r
    simp [eval_impl_over]
  · intro d x p v w l r hpx hw
    simp [eval_impl_over, hpx, hw]
  · intro d x p v l r hpx hw
    simp [eval_impl_over, hpx, hw]
  · intro d p w l r hw
    simp [eval_impl, hw]
  · intro d p l r hw
    simp [eval_impl, hw]
  · unfold Expression.build build_sem
    rw [h]
    simp [toSem, sign_to_binary, Expression.set_param, Expression.eval, eval_impl,
      dict_insert, empty_dict]
    norm_num
  · unfold Expression.build build_sem
    rw [h]
    simp [toSem, sign_to_binary, Expression.evalAt, eval_impl_over, empty_dict]
    norm_num

/-- Witness for `param_resolution` at concrete parameters: the override
wins over a conflicting dictionary binding, the dictionary is used when
the name differs, and a missing name fails. -/
theorem param_resolution_witness :
    eval_impl_over (dict_insert empty_dict 'x' 3) 'x' 7
      (snode.mk (Content.param 'x') snode.null snode.null) = .ok 7 ∧
    eval_impl_over (dict_insert empty_dict 'y' 3) 'x' 7
      (snode.mk (Content.param 'y') snode.null snode.null) = .ok 3 ∧
    eval_impl empty_dict (snode.mk (Content.param 'z') snode.null snode.null) =
      .error ("Unassigned parameter ".push 'z') :=
  ⟨param_resolution.1 (dict_insert empty_dict 'x' 3) 'x' 7 snode.null snode.null,
   param_resolution.2.1 (dict_insert empty_dict 'y' 3) 'x' 'y' 7 3 snode.null snode.null
     (by decide) (by simp [dict_insert, empty_dict]),
   param_resolution.2.2.2.2.1 empty_dict 'z' snode.null snode.null rfl⟩

end Expr

namespace Expr

/-- C5: the optimizer is idempotent: any tree `optimize_impl` produces is
a fixed point of a second run (hence the second run trivially evaluates to
the same result under every binding), the same holds at the `expression`
level, and a subtree already folded to a constant re-optimizes to
itself. -/
theorem optimize_idempotent :
    (∀ (d : Dict) (n n' : snode), optimize_impl d n = .ok n' → optimize_impl d n' = .ok n') ∧
    (∀ (e e' : Expression), e.optimize = .ok e' → e'.optimize = .ok e') ∧
    (∀ (d : Dict) (v : ℝ) (l r : snode),
      optimize_impl d (snode.mk (Content.const v) l r) = .ok (snode.mk (Content.const v) l r)) := by
  refine ⟨fun d n n' h => optimize_fixed d n' (optimize_establishes d n n' h), ?_, ?_⟩
  · intro e e' h
    unfold Expression.optimize at h ⊢
    cases hh : e.head with
    | null =>
      rw [hh] at h
      dsimp only at h
      have he : e' = e := by
        cases h
        rfl
      subst he
      rw [hh]
    | mk c l r =>
      rw [hh] at h
      dsimp only at h
      cases ho : optimize_impl e.dict (snode.mk c l r) with
      | error err => rw [ho] at h; exact absurd h (by simp)
      | ok t' =>
        rw [ho] at h
        dsimp only at h
        have he : e' = ⟨t', e.dict⟩ := by
          cases h
          rfl
        subst he
        have hopt : IsOptimized t' := optimize_establishes e.dict _ t' ho
        cases t' with
        | null => exact absurd hopt (by simp [IsOptimized])
        | mk c2 l2 r2 =>
          dsimp only
          rw [optimize_fixed e.dict _ hopt]
  · intro d v l r
    simp [optimize_impl]

/-- Witness for `optimize_idempotent`: a freshly folded constant leaf is
optimized and re-optimized to itself. -/
theorem optimize_idempotent_witness :
    optimize_impl empty_dict (snode.mk (Content.const 5) snode.null snode.null) =
      .ok (snode.mk (Content.const 5) snode.null snode.null) :=
  optimize_idempotent.1 empty_dict _ _
    (optimize_idempotent.2.2 empty_dict 5 snode.null snode.null)

end Expr

namespace Expr

/-- C6 (counterexample): for `"y+z"` with an empty dictionary, `eval()`
fails naming `y`; supplying that one missing binding with
`set_param('y', 1)` still fails (now naming `z`), and supplying only `z`
fails naming `y` — so a failed eval is not, as claimed, guaranteed to
succeed after supplying the missing binding reported by the failure. -/
theorem eval_retry_counterexample :
    (match Expression.build "y+z" with
      | Except.error e => Except.error e
      | Except.ok e => e.eval) = .error "Unassigned parameter y" ∧
    (match Expression.build "y+z" with
      | Except.error e => Except.error e
      | Except.ok e => (e.set_param 'y' 1).eval) = .error "Unassigned parameter z" ∧
    (match Expression.build "y+z" with
      | Except.error e => Except.error e
      | Except.ok e => (e.set_param 'z' 1).eval) = .error "Unassigned parameter y" := by
  have h : build_impl "y+z" = .ok (node.mk (variant_t.binary '+')
      (node.mk (variant_t.param 'z') node.null node.null)
      (node.mk (variant_t.param 'y') node.null node.null)) := by decide
  refine ⟨?_, ?_, ?_⟩ <;>
  · unfold Expression.build build_sem
    rw [h]
    simp [toSem, sign_to_binary, Expression.set_param, Expression.eval, eval_impl,
      dict_insert, empty_dict]
    decide

/-- C6 (amended): evaluation never mutates the expression — in this model
`eval` is a function of the tree and dictionary, and `set_param` leaves
the tree untouched — and once the dictionary binds every parameter in an
evaluation-reachable position, evaluation succeeds, provided no null or
`Empty` node is reachable. -/
theorem eval_retry_after_full_binding :
    (∀ (e : Expression) (c : Char) (v : ℝ), (e.set_param c v).head = e.head) ∧
    (∀ (t : snode) (d : Dict), eval_ok_shape t → bound_params d t →
      ∃ v, eval_impl d t = .ok v) :=
  ⟨fun _ _ _ => rfl, fun t d h1 h2 => eval_total d t h1 h2⟩

/-- Witness for `eval_retry_after_full_binding`: the tree built from
`"y+z"` evaluates successfully once both parameters are bound. -/
theorem eval_retry_after_full_binding_witness :
    ∃ v, eval_impl (dict_insert (dict_insert empty_dict 'y' 1) 'z' 2)
      (snode.mk (Content.binary fun a b => a + b)
        (snode.mk (Content.param 'z') snode.null snode.null)
        (snode.mk (Content.param 'y') snode.null snode.null)) = .ok v :=
  eval_retry_after_full_binding.2 _ _
    (by constructor <;> trivial)
    (by constructor <;> simp [bound_params, dict_insert, empty_dict])

end Expr

namespace Expr

/-- C3 (counterexample): the claimed "named unary functions = 3" level is
false for `abs`: its tag `'|'` is absent from `sign_priority`'s letter
list and gets priority -1, so an arriving `+` is strictly stronger than a
pending `abs` and never pops it.  Observably, `"abs(0-2)+1"` parses as
`abs((0-2)+1)` and evaluates to 1, where the claimed precedence would
give `abs(0-2)+1 = 3`. -/
theorem abs_priority_counterexample :
    sign_priority '|' = -1 ∧ sign_priority '|' ≠ 3 ∧
    stronger_sign '+' '|' = true ∧
    compute "abs(0-2)+1" = .ok (some 1) ∧ (1 : ℝ) ≠ 3 := by
  refine ⟨by decide, by decide, by decide, ?_, by norm_num⟩
  have h : build_impl "abs(0-2)+1" = .ok (node.mk (variant_t.unary '|')
      (node.mk (variant_t.binary '+')
        (node.mk (variant_t.const 1) node.null node.null)
        (node.mk (variant_t.binary '-')
          (node.mk (variant_t.const 2) node.null node.null)
          (node.mk (variant_t.const 0) node.null node.null)))
      node.null) := by decide
  unfold compute Expression.build build_sem
  rw [h]
  simp [toSem, sign_to_unary, sign_to_binary, Expression.eval, eval_impl]
  rw [show ((-2:ℝ) + 1) = -1 by norm_num, abs_neg, abs_one]

/-- C3 (amended): precedence levels are `+ -` = 0 < `* /` = 1 < `^` = 2 <
named unary functions = 3 for every function tag except `abs`, whose tag
`'|'` falls outside the priority table at -1; equal precedence pops
(left-associative tie-break, no right-associative special case for `^`):
`"2+3*4"` evaluates to 14, `"(2+3)*4"` to 20 and `"2^3^2"` to
`(2^3)^2 = 64`. -/
theorem operator_precedence_amended :
    sign_priority '+' = 0 ∧ sign_priority '-' = 0 ∧
    sign_priority '*' = 1 ∧ sign_priority '/' = 1 ∧
    sign_priority '^' = 2 ∧
    (∀ c : Char,
      c ∈ (['s', 'c', 't', 'S', 'C', 'T', 'l', 'e', 'v', 'V'] : List Char) →
        sign_priority c = 3) ∧
    sign_priority '|' = -1 ∧
    (∀ c : Char, stronger_sign c c = false) ∧
    compute "2+3*4" = .ok (some 14) ∧
    compute "(2+3)*4" = .ok (some 20) ∧
    compute "2^3^2" = .ok (some 64) := by
  refine ⟨by decide, by decide, by decide, by decide, by decide,
    ?_, by decide, fun c => by simp [stronger_sign], ?_, ?_, ?_⟩
  · intro c hc
    fin_cases hc <;> decide
  · have h : build_impl "2+3*4" = .ok (node.mk (variant_t.binary '+')
        (node.mk (variant_t.binary '*')
          (node.mk (variant_t.const 4) node.null node.null)
          (node.mk (variant_t.const 3) node.null node.null))
        (node.mk (variant_t.const 2) node.null node.null)) := by decide
    unfold compute Expression.build build_sem
    rw [h]
    simp [toSem, sign_to_binary, Expression.eval, eval_impl]
    norm_num
  · have h : build_impl "(2+3)*4" = .ok (node.mk (variant_t.binary '*')
        (node.mk (variant_t.const 4) node.null node.null)
        (node.mk (variant_t.binary '+')
          (node.mk (variant_t.const 3) node.null node.null)
          (node.mk (variant_t.const 2) node.null node.null))) := by decide
    unfold compute Expression.build build_sem
    rw [h]
    simp [toSem, sign_to_binary, Expression.eval, eval_impl]
    norm_num
  · have h : build_impl "2^3^2" = .ok (node.mk (variant_t.binary '^')
        (node.mk (variant_t.const 2) node.null node.null)
        (node.mk (variant_t.binary '^')
          (node.mk (variant_t.const 3) node.null node.null)
          (node.mk (variant_t.const 2) node.null node.null))) := by decide
    unfold compute Expression.build build_sem
    rw [h]
    simp [toSem, sign_to_binary, Expression.eval, eval_impl]
    rw [show ((3:ℝ)) = ((3:ℕ):ℝ) by norm_num, Real.rpow_natCast]
    norm_num

/-- Witness for `operator_precedence_amended` at the concrete `sqrt` tag. -/
theorem operator_precedence_amended_witness :
    sign_priority 'v' = 3 :=
  operator_precedence_amended.2.2.2.2.2.1 'v' (by decide)

end Expr
